import Mathlib

/-!
Verification development for the TECA CF reader subsystem
(source: src/io/teca_cf_writer.cxx, which contains the implementation of
teca_cf_reader, plus src/data/teca_mesh.h).

The C++ source is shallowly embedded below.  Machine integers (size_t,
unsigned long) are modelled as Nat, with an explicit wrap modulo 2^64 at the
one place where unsigned underflow matters (whole_extent = n - 1).  Null
shared pointers (p_teca_variant_array) are modelled as Option; a variant
array itself is modelled as a List over an abstract element type.
-/

/-! ## NetCDF type codes (netcdf.h) and the NC_DISPATCH set

The NC_DISPATCH macro (src/io/teca_cf_writer.cxx lines 38-55) dispatches on
exactly the eleven type codes listed below; every other code falls into the
default branch which only logs an error. -/

def NC_NAT : Int := 0
def NC_BYTE : Int := 1
def NC_CHAR : Int := 2
def NC_SHORT : Int := 3
def NC_INT : Int := 4
def NC_FLOAT : Int := 5
def NC_DOUBLE : Int := 6
def NC_UBYTE : Int := 7
def NC_USHORT : Int := 8
def NC_UINT : Int := 9
def NC_INT64 : Int := 10
def NC_UINT64 : Int := 11
def NC_STRING : Int := 12

/-- The type codes handled by a case of NC_DISPATCH
(src/io/teca_cf_writer.cxx lines 38-55), in source order. -/
def ncDispatchCodes : List Int :=
  [NC_BYTE, NC_UBYTE, NC_CHAR, NC_SHORT, NC_USHORT, NC_INT, NC_UINT,
   NC_INT64, NC_UINT64, NC_FLOAT, NC_DOUBLE]

/-! ## crtrim (src/io/teca_cf_writer.cxx lines 71-81)

static void crtrim(char *s, long n) trims trailing padding characters in
place by overwriting them with the NUL character; the caller
(get_output_metadata, lines 661-668) then builds a std::string from the
buffer, which stops at the first NUL.  We model the buffer as a List Char
(the attribute text, assumed NUL-free) and the result as the list of
characters of the resulting std::string. -/

/-- The padding characters tested by the loop condition of crtrim:
space, newline, tab, carriage return. -/
def isPad (c : Char) : Bool :=
  (c = ' ') || (c = '\n') || (c = '\t') || (c = '\r')

/-- The backward scan of crtrim.  The C loop state is an index n with
c = s[n]; while (n > 0 && pad(c)) it nulls s[n] and moves to n-1.  This
function returns the final value of n (the index at which the loop exits);
the positions strictly above it are exactly the positions that were nulled. -/
def crtrimIdx (s : List Char) : Nat → Nat
  | 0 => 0
  | n + 1 => if isPad (s.getD (n + 1) ' ') then crtrimIdx s n else n + 1

/-- Model of crtrim followed by std::string construction: the empty guard
(!s || n == 0) returns the buffer unchanged; otherwise the scan starts at
index length-1 and the surviving string is the prefix up to and including
the exit index (all higher positions were overwritten with NUL). -/
def crtrim (s : List Char) : List Char :=
  if s.isEmpty then s
  else s.take (crtrimIdx s (s.length - 1) + 1)

/-- The spec's words for C7: the attribute text with every trailing padding
character removed (right-trimmed).  Stated independently of the source, for
comparison with crtrim. -/
def rtrimSpec (s : List Char) : List Char :=
  (s.reverse.dropWhile isPad).reverse

/-! ## Step-to-file resolution (src/io/teca_cf_writer.cxx lines 1016-1024)

    unsigned long idx = 0;
    unsigned long count = 0;
    for (unsigned int i = 1;
        (i < step_count.size()) && ((count + step_count[i-1]) <= time_step);
        ++idx, ++i)
    { count += step_count[i-1]; }
    unsigned long offs = time_step - count;

The loop examines step_count[i-1] for i = 1 .. size-1, i.e. it consumes
elements of step_count while at least two elements remain from the current
position (i < size) and the accumulated count would not pass time_step.
We model the walk structurally on the remaining list: the first pattern
(two or more elements remaining) is exactly the guard i < size. -/

def resolveLoop (ts : Nat) : List Nat → Nat → Nat → Nat × Nat
  | c :: d :: rest, idx, count =>
      if count + c ≤ ts then resolveLoop ts (d :: rest) (idx + 1) (count + c)
      else (idx, count)
  | _, idx, count => (idx, count)

/-- Step-to-file resolution: file index and intra-file offset
offs = time_step - count.  The subtraction is on unsigned long, but the
loop establishes count ≤ time_step, so Nat subtraction is exact. -/
def resolveStep (sc : List Nat) (ts : Nat) : Nat × Nat :=
  ((resolveLoop ts sc 0 0).1, ts - (resolveLoop ts sc 0 0).2)

/-! ## Time-axis assembly (src/io/teca_cf_writer.cxx lines 756-804)

The worker pool returns one (file id, array pointer) pair per file, in
completion order; the code builds a std::map from them and then assembles:

    t_axis = time_arrays[0];
    if (!t_axis) { TECA_ERROR("Failed to read time axis") return ...; }
    step_count.push_back(time_arrays[0]->size());
    for (size_t i = 1; i < n_files; ++i)
    {
        p_teca_variant_array tmp = time_arrays[i];
        t_axis->append(*tmp.get());
        step_count.push_back(tmp->size());
    }

Only the i = 0 result is tested for a null pointer; for i >= 1 the result is
dereferenced unconditionally, which is undefined behaviour when the read
task failed.  The outcome type makes the three exits explicit. -/

inductive AsmOutcome (α : Type) where
  | errorTimeAxis : AsmOutcome α
  | nullDeref : Nat → AsmOutcome α
  | ok : List α → List Nat → AsmOutcome α
  deriving DecidableEq

/-- The assembly loop for files 1 .. n-1: i is the current file index, k the
number of remaining iterations, t the time axis so far, sc the step counts
so far.  A null result at file i is the unconditional dereference
t_axis->append(*tmp.get()). -/
def assembleLoop (ta : Nat → Option (List α)) :
    List α → List Nat → Nat → Nat → AsmOutcome α
  | t, sc, _, 0 => .ok t sc
  | t, sc, i, k + 1 =>
      match ta i with
      | none => .nullDeref i
      | some ti => assembleLoop ta (t ++ ti) (sc ++ [ti.length]) (i + 1) k

/-- Time-axis assembly over n files, with ta i the map lookup
time_arrays[i] (a null shared pointer is none).  Mirrors lines 780-793. -/
def assembleTimeAxis (ta : Nat → Option (List α)) (n : Nat) : AsmOutcome α :=
  match ta 0 with
  | none => .errorTimeAxis
  | some t0 => assembleLoop ta t0 [t0.length] 1 (n - 1)

/-- The time section of the metadata phase (lines 756-804): when
t_axis_variable is non-empty the per-file reads are assembled; otherwise
step_count is [1] and a single default-valued time axis is synthesized
(lines 795-804). -/
def timeMetadata (tAxisVariable : String) (dflt : α)
    (ta : Nat → Option (List α)) (nFiles : Nat) : AsmOutcome α :=
  if tAxisVariable ≠ "" then assembleTimeAxis ta nFiles
  else .ok [dflt] [1]

/-- number_of_time_steps is inserted as t_axis->size() (line 825). -/
def numberOfTimeSteps (t : List α) : Nat :=
  t.length

/-- Model of the std::map built from the completion-order result list
(lines 778-779): std::map insertion keeps the first occurrence of a key,
and operator[] on an absent key yields a default-constructed (null) shared
pointer, hence the join. -/
def timeArrays (results : List (Nat × Option (List α))) (i : Nat) :
    Option (List α) :=
  match results.find? (fun p => p.1 == i) with
  | some p => p.2
  | none => none

/-! ## The coordinates nested bag (src/io/teca_cf_writer.cxx lines 806-814)

    coords.insert("x_variable", x_axis_variable);
    coords.insert("y_variable", (z_axis_variable.empty() ? "y" : z_axis_variable));
    coords.insert("z_variable", (z_axis_variable.empty() ? "z" : z_axis_variable));
    coords.insert("t_variable", (z_axis_variable.empty() ? "t" : z_axis_variable));

Note that every ternary tests and uses z_axis_variable, also on the
y_variable and t_variable lines. -/

/-- The four name entries of the coordinates bag, as an association list in
insertion order.  The y_axis_variable and t_axis_variable arguments are in
scope in the source but are not read by this code. -/
def buildCoordsVars (xAxisVariable yAxisVariable zAxisVariable
    tAxisVariable : String) : List (String × String) :=
  [("x_variable", xAxisVariable),
   ("y_variable", if zAxisVariable = "" then "y" else zAxisVariable),
   ("z_variable", if zAxisVariable = "" then "z" else zAxisVariable),
   ("t_variable", if zAxisVariable = "" then "t" else zAxisVariable)]

/-! ## Mesh geometry of the metadata phase
(src/io/teca_cf_writer.cxx lines 512-745 and 816-820)

n_x, n_y, n_z are size_t initialized to 1; the dimension-length query
overwrites n_y (n_z) only when y_axis_variable (z_axis_variable) is
non-empty.  The x axis array is allocated at n_x and filled by a read of
n_x elements; y and z are allocated at n_y / n_z when configured and
otherwise are the one-element default arrays of lines 712-719 / 738-745.
whole_extent is the six-vector (0, n_x-1, 0, n_y-1, 0, n_z-1) with size_t
(mod 2^64) subtraction. -/

structure GeomMeta (α : Type) where
  x : List α
  y : List α
  z : List α
  wholeExtent : List Nat
  deriving DecidableEq

/-- size_t subtraction n - 1, wrapping modulo 2^64. -/
def sub1
    (n : Nat) : Nat :=
  (n + (2 ^ 64 - 1)) % 2 ^ 64

/-- The geometry part of the global metadata record.  xData is the
successfully read x axis (the read fills exactly n_x = xData.length
elements); yData / zData likewise when the axis is configured. -/
def buildGeomMeta (yAxisVariable zAxisVariable : String)
    (nx ny nz : Nat) (xData yData zData : List α) (dflt : α) : GeomMeta α :=
  let nY := if yAxisVariable = "" then 1 else ny
  let nZ := if zAxisVariable = "" then 1 else nz
  { x := xData
    y := if yAxisVariable = "" then [dflt] else yData
    z := if zAxisVariable = "" then [dflt] else zData
    wholeExtent := [0, sub1 nx, 0, sub1 nY, 0, sub1 nZ] }

/-! ## The execute phase (src/io/teca_cf_writer.cxx lines 947-1212) -/

/-- The per-variable attribute bag recorded by the metadata phase (lines
639-644): netcdf type code, variable id, and the dim_names list.  The
execute phase retrieves dim_names through a dynamic_pointer_cast that can
fail, hence the Option. -/
structure VarAtts where
  type : Int
  id : Nat
  dimNames : Option (List String)
  deriving DecidableEq

/-- The reader's configuration properties (lines 368-376). -/
structure Config where
  filesRegex : String
  fileName : String
  xAxisVariable : String
  yAxisVariable : String
  zAxisVariable : String
  tAxisVariable : String
  threadPoolSize : Int
  deriving DecidableEq

/-- The execute request bag: time_step defaults to 0 when absent (line
975-976), extent defaults to whole_extent (lines 987-989), arrays to the
empty list (lines 993-994). -/
structure Request where
  timeStep : Option Nat
  extent : Option (List Nat)
  arrays : List String

/-- The environment execute reads: the cached global metadata record's
entries (each fatal when absent), the handle acquisition outcome, and the
two NetCDF hyperslab reads abstracted as possibly failing functions. -/
structure ExecEnv (α : Type) where
  coords : Option (List α × List α × List α × List α)
  wholeExtent : Option (List Nat)
  stepCount : Option (List Nat)
  root : Option String
  files : Option (List String)
  attributes : Option (String → Option VarAtts)
  timeVars : List String
  handleOk : Bool
  readArray : String → Option (List α)
  readTimeVar : String → Option (List α)

/-- The mesh populated by execute (set_x_coordinates etc., point arrays
appended by name; an appended array may be a null pointer). -/
structure Mesh (α : Type) where
  x : List α
  y : List α
  z : List α
  time : α
  timeStep : Nat
  wholeExtent : List Nat
  extent : List Nat
  pointArrays : List (String × Option (List α))
  infoArrays : List (String × Option (List α))

/-- mesh_dim_names built at lines 1082-1111: (t?, z?, y?, x?), each present
iff its axis variable is configured. -/
def meshDimNames (cfg : Config) : List String :=
  (if cfg.tAxisVariable ≠ "" then [cfg.tAxisVariable] else []) ++
  (if cfg.zAxisVariable ≠ "" then [cfg.zAxisVariable] else []) ++
  (if cfg.yAxisVariable ≠ "" then [cfg.yAxisVariable] else []) ++
  (if cfg.xAxisVariable ≠ "" then [cfg.xAxisVariable] else [])

/-- teca_variant_array::new_copy over an inclusive index range, used to
slice the coordinate axes on the requested extent (lines 997-999). -/
def sliceCopy (l : List α) (lo hi : Nat) : List α :=
  (l.drop lo).take (hi + 1 - lo)

/-- The requested-arrays loop (lines 1113-1170).  Metadata failure,
dimension mismatch, and read failure all hit a continue and skip the array;
an unsupported type code hits the NC_DISPATCH default branch, which only
logs, so control falls through to the append with the array pointer still
null. -/
def execArraysLoop (meshDims : List String) (att : String → Option VarAtts)
    (readA : String → Option (List α)) :
    List String → List (String × Option (List α))
  | [] => []
  | name :: rest =>
      match att name with
      | none => execArraysLoop meshDims att readA rest
      | some a =>
          match a.dimNames with
          | none => execArraysLoop meshDims att readA rest
          | some dims =>
              if dims = meshDims then
                if ncDispatchCodes.contains a.type then
                  match readA name with
                  | none => execArraysLoop meshDims att readA rest
                  | some d =>
                      (name, some d) :: execArraysLoop meshDims att readA rest
                else (name, none) :: execArraysLoop meshDims att readA rest
              else execArraysLoop meshDims att readA rest

/-- The time-variables loop (lines 1172-1209): same skip/fall-through
structure, but no dimension check and a single-element read. -/
def execTimeVarsLoop (att : String → Option VarAtts)
    (readT : String → Option (List α)) :
    List String → List (String × Option (List α))
  | [] => []
  | v :: rest =>
      match att v with
      | none => execTimeVarsLoop att readT rest
      | some a =>
          if ncDispatchCodes.contains a.type then
            match readT v with
            | none => execTimeVarsLoop att readT rest
            | some d => (v, some d) :: execTimeVarsLoop att readT rest
          else (v, none) :: execTimeVarsLoop att readT rest

/-- teca_cf_reader::execute (lines 947-1212), in source order: the fatal
checks on coordinates, whole_extent, step_count, root/files, the handle,
and attributes each return a null dataset; otherwise the mesh is built and
returned.  The calendar/time-units block (lines 1065-1074) only copies two
strings onto the mesh and is not modelled (no claim concerns it). -/
def execute [Inhabited α] (cfg : Config) (env : ExecEnv α) (req : Request) :
    Option (Mesh α) :=
  match env.coords with
  | none => none
  | some (xC, yC, zC, tC) =>
      let ts := req.timeStep.getD 0
      match env.wholeExtent with
      | none => none
      | some we =>
          let ext := req.extent.getD we
          let outX := sliceCopy xC (ext.getD 0 0) (ext.getD 1 0)
          let outY := sliceCopy yC (ext.getD 2 0) (ext.getD 3 0)
          let outZ := sliceCopy zC (ext.getD 4 0) (ext.getD 5 0)
          let t := if ts < tC.length then tC.getD ts default else default
          match env.stepCount with
          | none => none
          | some sc =>
              let r := resolveStep sc ts
              match env.root, env.files with
              | some _, some fs =>
                  if r.1 < fs.length then
                    if env.handleOk then
                      match env.attributes with
                      | none => none
                      | some att =>
                          some { x := outX, y := outY, z := outZ,
                                 time := t, timeStep := ts,
                                 wholeExtent := we, extent := ext,
                                 pointArrays :=
                                   execArraysLoop (meshDimNames cfg) att
                                     env.readArray req.arrays,
                                 infoArrays :=
                                   execTimeVarsLoop att env.readTimeVar
                                     env.timeVars }
                    else none
                  else none
              | _, _ => none

/-- The spec's words for a requested array that succeeds during execute:
its attribute lookup succeeds, its dimension-name list equals the mesh
dimension list, and its hyperslab read succeeds; the result is the array
attached under the requested name.  Stated from the spec, for comparison
with execArraysLoop. -/
def specArrayResult (meshDims : List String) (att : String → Option VarAtts)
    (readA : String → Option (List α)) (name : String) :
    Option (String × Option (List α)) :=
  match att name with
  | none => none
  | some a =>
      match a.dimNames with
      | none => none
      | some dims =>
          if dims = meshDims then (readA name).map (fun d => (name, some d))
          else none

/-! ## Reader state and cache invalidation
(src/io/teca_cf_writer.cxx lines 192-203, 429-442)

set_modified clears the cached metadata record and the handle cache before
forwarding to the base class, which marks the pipeline modified.  The
property setters (the TECA_ALGORITHM_PROPERTY macro, declared outside this
repository slice) assign the new value and trigger set_modified. -/

/-- Reader state: configuration, cached metadata record (none models the
empty record, matching teca_metadata::clear and the operator-bool cache
test at line 458), the handle map (basename to optional open handle id),
and the base-class modified flag. -/
structure ReaderState (μ : Type) where
  cfg : Config
  cachedMetadata : Option μ
  handles : List (String × Option Nat)
  modified : Bool

/-- teca_cf_reader_internals::clear_handles (lines 192-203): every entry's
netcdf_handle is deleted (its destructor closes the file) and the map is
cleared.  Returns the new map together with the list of handles that were
closed. -/
def clear_handles (m : List (String × Option Nat)) :
    List (String × Option Nat) × List Nat :=
  ([], m.filterMap Prod.snd)

/-- teca_cf_reader::clear_cached_metadata (lines 438-442). -/
def clear_cached_metadata (s : ReaderState μ) : ReaderState μ × List Nat :=
  ({ s with cachedMetadata := none, handles := (clear_handles s.handles).1 },
   (clear_handles s.handles).2)

/-- teca_cf_reader::set_modified (lines 429-435): clear the cached
metadata, then forward to teca_algorithm::set_modified (which records the
modification). -/
def set_modified (s : ReaderState μ) : ReaderState μ × List Nat :=
  (({ (clear_cached_metadata s).1 with modified := true }),
   (clear_cached_metadata s).2)

/-- Modelled from the spec: a property setter (the TECA_ALGORITHM_PROPERTY
macro, whose definition lives outside src/) assigns the new property value
and then triggers set_modified. -/
def setPropertyTriggering (upd : Config → Config) (s : ReaderState μ) :
    ReaderState μ × List Nat :=
  set_modified { s with cfg := upd s.cfg }

/-- The cache test at the top of get_output_metadata (lines 458-459):
the cached record is returned iff it is non-empty. -/
def usesCachedMetadata (s : ReaderState μ) : Bool :=
  s.cachedMetadata.isSome

/-! ## Helper lemmas -/

lemma sum_take_le (l : List Nat) (n : Nat) : (l.take n).sum ≤ l.sum := by
  conv_rhs => rw [← List.take_append_drop n l]
  rw [List.sum_append]
  exact Nat.le_add_right _ _

lemma resolveLoop_spec (ts : Nat) (l : List Nat) :
    ∀ (idx count : Nat), l ≠ [] → count ≤ ts →
    ∃ k, k < l.length ∧
      (resolveLoop ts l idx count).1 = idx + k ∧
      (resolveLoop ts l idx count).2 = count + (l.take k).sum ∧
      count + (l.take k).sum ≤ ts ∧
      (ts < count + (l.take (k + 1)).sum ∨ k = l.length - 1) := by
  induction l with
  | nil => intro idx count h _; exact absurd rfl h
  | cons c rest ih =>
      intro idx count _ hcount
      cases rest with
      | nil =>
          refine ⟨0, by simp, ?_, ?_, ?_, Or.inr rfl⟩ <;>
            simp [resolveLoop, hcount]
      | cons d rest2 =>
          by_cases hc : count + c ≤ ts
          · obtain ⟨k, hk1, hk2, hk3, hk4, hk5⟩ :=
              ih (idx + 1) (count + c) (by simp) hc
            have hstep : resolveLoop ts (c :: d :: rest2) idx count =
                resolveLoop ts (d :: rest2) (idx + 1) (count + c) := by
              simp [resolveLoop, hc]
            refine ⟨k + 1, ?_, ?_, ?_, ?_, ?_⟩
            · simp only [List.length_cons] at hk1 ⊢; omega
            · rw [hstep, hk2]; omega
            · rw [hstep, hk3, List.take_succ_cons, List.sum_cons]; omega
            · rw [List.take_succ_cons, List.sum_cons]; omega
            · rcases hk5 with h | h
              · left
                rw [show k + 1 + 1 = k + 2 from rfl, List.take_succ_cons,
                  List.sum_cons]
                omega
              · right; simp only [List.length_cons] at h ⊢; omega
          · refine ⟨0, by simp, ?_, ?_, ?_, Or.inl ?_⟩ <;>
              simp [resolveLoop, hc, hcount]
            omega

/-- C1: in the execute phase, for every request with
0 <= time_step <= number_of_time_steps - 1 (against metadata whose files
each hold at least one step, expressed here by positivity of the last
count), the step-to-file resolution of lines 1016-1024 walks step_count
accumulating counts until the next step would exceed time_step: the
resulting file index idx satisfies
sum step_count[0..idx) <= time_step < sum step_count[0..idx+1), the offset
is offs = time_step - sum step_count[0..idx), and in particular
time_step = number_of_time_steps - 1 resolves to the last file with offset
step_count[last] - 1. -/
theorem c1_step_to_file_resolution (init : List Nat) (lastc ts : Nat)
    (h1 : ts < (init ++ [lastc]).sum) (h2 : 0 < lastc) :
    (resolveStep (init ++ [lastc]) ts).1 < (init ++ [lastc]).length ∧
    ((init ++ [lastc]).take (resolveStep (init ++ [lastc]) ts).1).sum ≤ ts ∧
    ts <
      ((init ++ [lastc]).take
        ((resolveStep (init ++ [lastc]) ts).1 + 1)).sum ∧
    (resolveStep (init ++ [lastc]) ts).2 =
      ts - ((init ++ [lastc]).take (resolveStep (init ++ [lastc]) ts).1).sum ∧
    (ts = (init ++ [lastc]).sum - 1 →
      (resolveStep (init ++ [lastc]) ts).1 = init.length ∧
      (resolveStep (init ++ [lastc]) ts).2 = lastc - 1) := by
  obtain ⟨k, hk1, hk2, hk3, hk4, hk5⟩ :=
    resolveLoop_spec ts (init ++ [lastc]) 0 0 (by simp) (Nat.zero_le ts)
  have hfst : (resolveStep (init ++ [lastc]) ts).1 = k := by
    simp [resolveStep, hk2]
  have hsnd : (resolveStep (init ++ [lastc]) ts).2 =
      ts - ((init ++ [lastc]).take k).sum := by
    simp [resolveStep, hk3]
  have hlen : (init ++ [lastc]).length = init.length + 1 := by simp
  have hsum : (init ++ [lastc]).sum = init.sum + lastc := by simp
  have hbound : ts < ((init ++ [lastc]).take (k + 1)).sum := by
    rcases hk5 with h | h
    · omega
    · have : (init ++ [lastc]).take (k + 1) = init ++ [lastc] :=
        List.take_of_length_le (by omega)
      rw [this]; exact h1
  refine ⟨by rw [hfst]; exact hk1, by rw [hfst]; omega,
    by rw [hfst]; exact hbound, by rw [hfst, hsnd], ?_⟩
  intro hts
  have hkinit : k = init.length := by
    by_contra hne
    have hklt : k + 1 ≤ init.length := by omega
    rcases hk5 with h | h
    · have htk : (init ++ [lastc]).take (k + 1) = init.take (k + 1) :=
        List.take_append_of_le_length hklt
      have hle : (init.take (k + 1)).sum ≤ init.sum := sum_take_le _ _
      rw [htk] at h
      omega
    · omega
  have htk : (init ++ [lastc]).take init.length = init := List.take_left _ _
  constructor
  · rw [hfst, hkinit]
  · rw [hsnd, hkinit, htk]
    omega

lemma assembleLoop_ne_error (ta : Nat → Option (List α)) :
    ∀ (k : Nat) (t : List α) (sc : List Nat) (i : Nat),
    assembleLoop ta t sc i k ≠ AsmOutcome.errorTimeAxis := by
  intro k
  induction k with
  | zero => intro t sc i h; simp [assembleLoop] at h
  | succ k ih =>
      intro t sc i h
      rw [assembleLoop] at h
      cases hti : ta i with
      | none => rw [hti] at h; simp at h
      | some ti => rw [hti] at h; exact ih _ _ _ h

lemma assembleLoop_nullDeref (ta : Nat → Option (List α)) :
    ∀ (k : Nat) (t : List α) (sc : List Nat) (i m : Nat),
    i ≤ m → m < i + k → ta m = none →
    (∀ j, i ≤ j → j < m → ta j ≠ none) →
    assembleLoop ta t sc i k = AsmOutcome.nullDeref m := by
  intro k
  induction k with
  | zero => intro t sc i m h1 h2 _ _; omega
  | succ k ih =>
      intro t sc i m h1 h2 hm hprev
      rcases Nat.eq_or_lt_of_le h1 with rfl | hlt
      · rw [assembleLoop, hm]
      · have hi : ta i ≠ none := hprev i le_rfl hlt
        cases hti : ta i with
        | none => exact absurd hti hi
        | some ti =>
            rw [assembleLoop, hti]
            exact ih _ _ (i + 1) m hlt (by omega) hm
              (fun j hj1 hj2 => hprev j (by omega) hj2)

/-- C9: in the time-axis assembly, only the first file's result is checked
for absence (the error exit is taken exactly when the file-0 result is a
null pointer); for every later file index i with 1 <= i < n whose read
failed and returned a null result (all earlier results being non-null), the
assembler dereferences that absent result unconditionally, so the
null-dereference exit is reached and the error exit never fires for files
beyond the first. -/
theorem c9_only_first_result_checked (ta : Nat → Option (List α)) (n : Nat) :
    (assembleTimeAxis ta n = AsmOutcome.errorTimeAxis ↔ ta 0 = none) ∧
    (∀ i, 0 < i → i < n → ta i = none → (∀ j, j < i → ta j ≠ none) →
      assembleTimeAxis ta n = AsmOutcome.nullDeref i) := by
  constructor
  · constructor
    · intro h
      cases h0 : ta 0 with
      | none => rfl
      | some t0 =>
          rw [assembleTimeAxis, h0] at h
          exact absurd h (assembleLoop_ne_error ta _ _ _ _)
    · intro h0
      rw [assembleTimeAxis, h0]
  · intro i hi0 hin hnone hprev
    cases h0 : ta 0 with
    | none => exact absurd h0 (hprev 0 hi0)
    | some t0 =>
        rw [assembleTimeAxis, h0]
        exact assembleLoop_nullDeref ta (n - 1) t0 [t0.length] 1 i hi0
          (by omega) hnone (fun j hj1 hj2 => hprev j hj2)

/-- Witness for C9 at a concrete input: three files, the file-1 read task
fails; the assembly dereferences the absent result (and the error exit
characterization holds at this input). -/
theorem c9_only_first_result_checked_witness :
    (assembleTimeAxis (fun j => if j = 1 then none else some [(9 : Nat)]) 3 =
        AsmOutcome.errorTimeAxis ↔
      (fun j => if j = 1 then none else some [(9 : Nat)]) 0 = none) ∧
    assembleTimeAxis (fun j => if j = 1 then none else some [(9 : Nat)]) 3 =
      AsmOutcome.nullDeref 1 :=
  ⟨(c9_only_first_result_checked
      (fun j => if j = 1 then none else some [(9 : Nat)]) 3).1,
   (c9_only_first_result_checked
      (fun j => if j = 1 then none else some [(9 : Nat)]) 3).2 1
     (by decide) (by decide) (by simp)
     (fun j hj => by
        have hj0 : j = 0 := by omega
        subst hj0
        simp)⟩

lemma assembleLoop_ok_sum (ta : Nat → Option (List α)) :
    ∀ (k : Nat) (t : List α) (sc : List Nat) (i : Nat) (t2 : List α)
      (sc2 : List Nat),
    assembleLoop ta t sc i k = AsmOutcome.ok t2 sc2 →
    sc.sum = t.length → sc2.sum = t2.length := by
  intro k
  induction k with
  | zero =>
      intro t sc i t2 sc2 h hbase
      rw [assembleLoop] at h
      cases h
      exact hbase
  | succ k ih =>
      intro t sc i t2 sc2 h hbase
      rw [assembleLoop] at h
      cases hti : ta i with
      | none => rw [hti] at h; simp at h
      | some ti =>
          rw [hti] at h
          exact ih _ _ _ _ _ h (by simp [hbase])

lemma assembleLoop_ok_length (ta : Nat → Option (List α)) :
    ∀ (k : Nat) (t : List α) (sc : List Nat) (i : Nat) (t2 : List α)
      (sc2 : List Nat),
    assembleLoop ta t sc i k = AsmOutcome.ok t2 sc2 →
    sc2.length = sc.length + k := by
  intro k
  induction k with
  | zero =>
      intro t sc i t2 sc2 h
      rw [assembleLoop] at h
      cases h
      omega
  | succ k ih =>
      intro t sc i t2 sc2 h
      rw [assembleLoop] at h
      cases hti : ta i with
      | none => rw [hti] at h; simp at h
      | some ti =>
          rw [hti] at h
          have := ih _ _ _ _ _ h
          simp at this
          omega

/-- C3 counterexample: with t_axis_variable unset and two enumerated files,
the metadata phase produces step_count = [1], so
files.len == step_count.len fails. -/
theorem c3_counterexample :
    timeMetadata "" (0 : Nat) (fun _ => some [7])
        (["f1", "f2"] : List String).length =
      AsmOutcome.ok [0] [1] ∧
    ¬ (["f1", "f2"] : List String).length = ([1] : List Nat).length := by
  constructor
  · rfl
  · decide

/-- C3 amended: for every successful metadata phase over a non-empty file
set, sum(step_count) == number_of_time_steps == t.len always holds, and
files.len == step_count.len holds whenever t_axis_variable is non-empty;
with an unset t_axis_variable, step_count is [1] regardless of the number
of files. -/
theorem c3_invariants_amended (tVar : String) (dflt : α)
    (ta : Nat → Option (List α)) (files : List String) (t : List α)
    (sc : List Nat) (hne : files ≠ [])
    (h : timeMetadata tVar dflt ta files.length = AsmOutcome.ok t sc) :
    sc.sum = numberOfTimeSteps t ∧ numberOfTimeSteps t = t.length ∧
    (tVar ≠ "" → sc.length = files.length) ∧
    (tVar = "" → sc = [1]) := by
  have hlen : 0 < files.length := List.length_pos.mpr hne
  rw [timeMetadata] at h
  by_cases htv : tVar = ""
  · rw [if_neg (by simp [htv])] at h
    cases h
    refine ⟨by simp [numberOfTimeSteps], rfl, fun hc => absurd htv hc,
      fun _ => rfl⟩
  · rw [if_pos htv] at h
    rw [assembleTimeAxis] at h
    cases h0 : ta 0 with
    | none => rw [h0] at h; simp at h
    | some t0 =>
        rw [h0] at h
        have hsum := assembleLoop_ok_sum ta _ _ _ _ _ _ h (by simp)
        have hl := assembleLoop_ok_length ta _ _ _ _ _ _ h
        simp at hl
        refine ⟨hsum, rfl, fun _ => by omega, fun hc => absurd hc htv⟩

/-- Witness for C3's amended claim at a concrete input: two files with two
and one steps respectively. -/
theorem c3_invariants_amended_witness :
    (["a", "b"] : List String) ≠ [] ∧
    timeMetadata "time" (0 : Nat)
        (fun i => if i = 0 then some [1, 2] else some [3])
        (["a", "b"] : List String).length =
      AsmOutcome.ok [1, 2, 3] [2, 1] ∧
    (([2, 1] : List Nat).sum = numberOfTimeSteps [1, 2, 3] ∧
     numberOfTimeSteps [1, 2, 3] = ([1, 2, 3] : List Nat).length ∧
     (("time" : String) ≠ "" → ([2, 1] : List Nat).length =
        (["a", "b"] : List String).length) ∧
     (("time" : String) = "" → ([2, 1] : List Nat) = [1])) :=
  ⟨by decide, by rfl,
   c3_invariants_amended "time" 0
     (fun i => if i = 0 then some [1, 2] else some [3]) ["a", "b"]
     [1, 2, 3] [2, 1] (by decide) (by rfl)⟩

lemma find?_of_mem_unique {β : Type u} {p : β → Bool} {l : List β} {b : β}
    (hmem : b ∈ l) (hb : p b = true)
    (huniq : ∀ a ∈ l, p a = true → a = b) :
    l.find? p = some b := by
  induction l with
  | nil => cases hmem
  | cons a tl ih =>
      cases hpa : p a with
      | true =>
          rw [List.find?_cons_of_pos _ hpa]
          rw [huniq a (List.mem_cons_self a tl) hpa]
      | false =>
          rw [List.find?_cons_of_neg _ (by simp [hpa])]
          rcases List.mem_cons.mp hmem with rfl | hmem2
          · rw [hb] at hpa; cases hpa
          · exact ih hmem2 (fun x hx px => huniq x (List.mem_cons_of_mem _ hx) px)

lemma timeArrays_of_perm (times : Nat → List α) (n : Nat)
    (results : List (Nat × Option (List α)))
    (hperm : results.Perm
      ((List.range n).map (fun i => (i, some (times i))))) :
    ∀ i, i < n → timeArrays results i = some (times i) := by
  intro i hi
  have hmem : ((i, some (times i)) : Nat × Option (List α)) ∈ results := by
    refine hperm.mem_iff.mpr ?_
    exact List.mem_map.mpr ⟨i, List.mem_range.mpr hi, rfl⟩
  have hfind : results.find? (fun p => p.1 == i) = some (i, some (times i)) := by
    refine find?_of_mem_unique
      (p := fun q : Nat × Option (List α) => q.1 == i) hmem (by simp) ?_
    intro a ha hpa
    have ha2 := hperm.mem_iff.mp ha
    obtain ⟨j, _, rfl⟩ := List.mem_map.mp ha2
    simp at hpa
    subst hpa
    rfl
  rw [timeArrays, hfind]

lemma assembleLoop_all_some (ta : Nat → Option (List α))
    (times : Nat → List α) :
    ∀ (k i : Nat) (t : List α) (sc : List Nat),
    (∀ j, i ≤ j → j < i + k → ta j = some (times j)) →
    assembleLoop ta t sc i k =
      AsmOutcome.ok (t ++ ((List.range' i k).map times).flatten)
        (sc ++ (List.range' i k).map (fun j => (times j).length)) := by
  intro k
  induction k with
  | zero => intro i t sc _; simp [assembleLoop]
  | succ k ih =>
      intro i t sc hall
      have hi : ta i = some (times i) := hall i le_rfl (by omega)
      have hred := ih (i + 1) (t ++ times i) (sc ++ [(times i).length])
        (fun j hj1 hj2 => hall j (by omega) (by omega))
      rw [assembleLoop, hi]
      refine hred.trans ?_
      rw [List.range'_succ]
      simp [List.append_assoc]

/-- C4: for every collection of per-file time-read results, in whatever
order the worker-pool tasks completed (any permutation of the (file index,
array) pairs), the assembled global time axis is the concatenation of the
per-file time arrays in file-index order and step_count[i] is the length of
file i's time array. -/
theorem c4_concatenation_in_file_order (times : Nat → List α) (n : Nat)
    (results : List (Nat × Option (List α)))
    (hperm : results.Perm
      ((List.range n).map (fun i => (i, some (times i)))))
    (hn : 0 < n) :
    assembleTimeAxis (timeArrays results) n =
      AsmOutcome.ok (((List.range n).map times).flatten)
        ((List.range n).map (fun i => (times i).length)) := by
  have hta := timeArrays_of_perm times n results hperm
  obtain ⟨m, rfl⟩ : ∃ m, n = m + 1 := ⟨n - 1, by omega⟩
  have hred := assembleLoop_all_some (timeArrays results) times m 1 (times 0)
    [(times 0).length] (fun j hj1 hj2 => hta j (by omega))
  rw [assembleTimeAxis, hta 0 (by omega)]
  refine hred.trans ?_
  rw [List.range_eq_range', List.range'_succ]
  simp

/-- Witness for C4 at a concrete input: two files whose tasks completed in
reverse order; the axis is still assembled in file-index order. -/
theorem c4_concatenation_in_file_order_witness :
    ([((1 : Nat), some [(5 : Nat)]), (0, some [3, 4])]).Perm
      ((List.range 2).map
        (fun i => (i, some (if i = 0 then [3, 4] else [5])))) ∧
    assembleTimeAxis
        (timeArrays [((1 : Nat), some [(5 : Nat)]), (0, some [3, 4])]) 2 =
      AsmOutcome.ok
        (((List.range 2).map (fun i => if i = 0 then [3, 4] else [5])).flatten)
        ((List.range 2).map
          (fun i => ((if i = 0 then [3, 4] else ([5] : List Nat)).length))) :=
  ⟨by decide,
   c4_concatenation_in_file_order (fun i => if i = 0 then [3, 4] else [5]) 2
     [((1 : Nat), some [(5 : Nat)]), (0, some [3, 4])] (by decide) (by decide)⟩

/-- Witness for C1 at a concrete input: step_count = [3, 2],
time_step = 4 = number_of_time_steps - 1 resolves to the last file with
offset 1 = step_count[last] - 1. -/
theorem c1_step_to_file_resolution_witness :
    (4 < ([3] ++ [2] : List Nat).sum ∧ 0 < 2) ∧
    ((resolveStep ([3] ++ [2]) 4).1 < ([3] ++ [2] : List Nat).length ∧
     (([3] ++ [2] : List Nat).take (resolveStep ([3] ++ [2]) 4).1).sum ≤ 4 ∧
     4 <
       (([3] ++ [2] : List Nat).take
         ((resolveStep ([3] ++ [2]) 4).1 + 1)).sum ∧
     (resolveStep ([3] ++ [2]) 4).2 =
       4 - (([3] ++ [2] : List Nat).take (resolveStep ([3] ++ [2]) 4).1).sum ∧
     (4 = ([3] ++ [2] : List Nat).sum - 1 →
       (resolveStep ([3] ++ [2]) 4).1 = ([3] : List Nat).length ∧
       (resolveStep ([3] ++ [2]) 4).2 = 2 - 1)) :=
  ⟨⟨by decide, by decide⟩,
   c1_step_to_file_resolution [3] 2 4 (by decide) (by decide)⟩

/-- C2: evaluation of the coordinates-bag name entries at the failing
configuration x_axis_variable = lon, y_axis_variable = lat,
z_axis_variable = plev, t_axis_variable = time: the code stores the
z-axis name under the y_variable and t_variable keys (lines 806-814),
contradicting the claim that those keys hold the configured y-axis and
t-axis names. -/
theorem c2_coordinates_names_eval :
    (buildCoordsVars "lon" "lat" "plev" "time").lookup "x_variable" =
      some "lon" ∧
    (buildCoordsVars "lon" "lat" "plev" "time").lookup "y_variable" =
      some "plev" ∧
    (buildCoordsVars "lon" "lat" "plev" "time").lookup "z_variable" =
      some "plev" ∧
    (buildCoordsVars "lon" "lat" "plev" "time").lookup "t_variable" =
      some "plev" ∧
    ¬ (buildCoordsVars "lon" "lat" "plev" "time").lookup "y_variable" =
      some "lat" ∧
    ¬ (buildCoordsVars "lon" "lat" "plev" "time").lookup "t_variable" =
      some "time" := by
  refine ⟨rfl, rfl, rfl, rfl, by decide, by decide⟩

lemma sub1_eq (n : Nat) (h1 : 0 < n) (h2 : n < 2 ^ 64) : sub1 n = n - 1 := by
  have h64 : (2 : Nat) ^ 64 = 18446744073709551616 := by norm_num
  rw [sub1, h64]
  rw [h64] at h2
  omega

/-- C6: for every successful metadata phase (coordinate dimensions are
positive and representable in size_t), the whole_extent is
(0, x.len-1, 0, y.len-1, 0, z.len-1); in particular an empty
y_axis_variable gives y.len = 1 and whole_extent[2..3] = (0, 0), and
analogously for z. -/
theorem c6_whole_extent (yVar zVar : String) (nx ny nz : Nat)
    (xD yD zD : List α) (dflt : α)
    (hxl : xD.length = nx) (hyl : yVar ≠ "" → yD.length = ny)
    (hzl : zVar ≠ "" → zD.length = nz)
    (hnx : 0 < nx) (hnx64 : nx < 2 ^ 64)
    (hny : yVar ≠ "" → 0 < ny) (hny64 : ny < 2 ^ 64)
    (hnz : zVar ≠ "" → 0 < nz) (hnz64 : nz < 2 ^ 64) :
    (buildGeomMeta yVar zVar nx ny nz xD yD zD dflt).wholeExtent =
      [0, (buildGeomMeta yVar zVar nx ny nz xD yD zD dflt).x.length - 1,
       0, (buildGeomMeta yVar zVar nx ny nz xD yD zD dflt).y.length - 1,
       0, (buildGeomMeta yVar zVar nx ny nz xD yD zD dflt).z.length - 1] ∧
    (yVar = "" →
      (buildGeomMeta yVar zVar nx ny nz xD yD zD dflt).y.length = 1 ∧
      (buildGeomMeta yVar zVar nx ny nz xD yD zD dflt).wholeExtent.getD 2 0 =
        0 ∧
      (buildGeomMeta yVar zVar nx ny nz xD yD zD dflt).wholeExtent.getD 3 0 =
        0) ∧
    (zVar = "" →
      (buildGeomMeta yVar zVar nx ny nz xD yD zD dflt).z.length = 1 ∧
      (buildGeomMeta yVar zVar nx ny nz xD yD zD dflt).wholeExtent.getD 4 0 =
        0 ∧
      (buildGeomMeta yVar zVar nx ny nz xD yD zD dflt).wholeExtent.getD 5 0 =
        0) := by
  have hone : sub1 1 = 0 := by
    have h64 : (2 : Nat) ^ 64 = 18446744073709551616 := by norm_num
    rw [sub1, h64]
  have hsx : sub1 nx = nx - 1 := sub1_eq nx hnx hnx64
  by_cases hy : yVar = "" <;> by_cases hz : zVar = ""
  · have hgeom : buildGeomMeta yVar zVar nx ny nz xD yD zD dflt =
        ⟨xD, [dflt], [dflt], [0, sub1 nx, 0, sub1 1, 0, sub1 1]⟩ := by
      simp [buildGeomMeta, hy, hz]
    rw [hgeom]
    refine ⟨by simp [hsx, hone, hxl], fun _ => ⟨rfl, rfl, by simp [hone]⟩,
      fun _ => ⟨rfl, rfl, by simp [hone]⟩⟩
  · have hgeom : buildGeomMeta yVar zVar nx ny nz xD yD zD dflt =
        ⟨xD, [dflt], zD, [0, sub1 nx, 0, sub1 1, 0, sub1 nz]⟩ := by
      simp [buildGeomMeta, hy, hz]
    rw [hgeom]
    refine ⟨?_, fun _ => ⟨rfl, rfl, by simp [hone]⟩,
      fun hzz => absurd hzz hz⟩
    simp [hsx, hone, hxl, hzl hz, sub1_eq nz (hnz hz) hnz64]
  · have hgeom : buildGeomMeta yVar zVar nx ny nz xD yD zD dflt =
        ⟨xD, yD, [dflt], [0, sub1 nx, 0, sub1 ny, 0, sub1 1]⟩ := by
      simp [buildGeomMeta, hy, hz]
    rw [hgeom]
    refine ⟨?_, fun hyy => absurd hyy hy,
      fun _ => ⟨rfl, rfl, by simp [hone]⟩⟩
    simp [hsx, hone, hxl, hyl hy, sub1_eq ny (hny hy) hny64]
  · have hgeom : buildGeomMeta yVar zVar nx ny nz xD yD zD dflt =
        ⟨xD, yD, zD, [0, sub1 nx, 0, sub1 ny, 0, sub1 nz]⟩ := by
      simp [buildGeomMeta, hy, hz]
    rw [hgeom]
    refine ⟨?_, fun hyy => absurd hyy hy, fun hzz => absurd hzz hz⟩
    simp [hsx, hxl, hyl hy, sub1_eq ny (hny hy) hny64, hzl hz,
      sub1_eq nz (hnz hz) hnz64]

/-- Witness for C6 at a concrete input: a 4 x 3 x 1 mesh with
y_axis_variable configured and z_axis_variable empty. -/
theorem c6_whole_extent_witness :
    ("lat" : String) ≠ "" ∧ ("" : String) = "" ∧
    (buildGeomMeta "lat" "" 4 3 9 [10, 20, 30, 40] [1, 2, 3]
      ([] : List Nat) 0).wholeExtent = [0, 3, 0, 2, 0, 0] ∧
    (buildGeomMeta "lat" "" 4 3 9 [10, 20, 30, 40] [1, 2, 3]
      ([] : List Nat) 0).z.length = 1 := by
  have h := c6_whole_extent "lat" "" 4 3 9 [10, 20, 30, 40] [1, 2, 3]
    ([] : List Nat) 0 (by decide) (fun _ => by decide)
    (fun hc => absurd rfl hc) (by decide) (by norm_num)
    (fun _ => by decide) (by norm_num) (fun hc => absurd rfl hc)
    (by norm_num)
  exact ⟨by decide, rfl, h.1, (h.2.2 rfl).1⟩

lemma crtrimIdx_le (s : List Char) : ∀ n, crtrimIdx s n ≤ n := by
  intro n
  induction n with
  | zero => simp [crtrimIdx]
  | succ n ih =>
      rw [crtrimIdx]
      by_cases h : isPad (s.getD (n + 1) ' ')
      · rw [if_pos h]; omega
      · rw [if_neg h]

lemma crtrimIdx_append (t : List Char) (c : Char) :
    ∀ m, m < t.length → crtrimIdx (t ++ [c]) m = crtrimIdx t m := by
  intro m
  induction m with
  | zero => intro _; simp [crtrimIdx]
  | succ m ih =>
      intro hm
      rw [crtrimIdx, crtrimIdx, List.getD_append _ _ _ _ hm]
      by_cases h : isPad (t.getD (m + 1) ' ')
      · rw [if_pos h, if_pos h, ih (by omega)]
      · rw [if_neg h, if_neg h]

/-- C7 counterexample: an attribute whose text is a single space is stored
unchanged by crtrim, not right-trimmed to the empty string: the n > 0
guard of the loop never removes the character at position 0. -/
theorem c7_counterexample :
    crtrim [' '] = [' '] ∧ rtrimSpec [' '] = [] ∧
    ¬ crtrim [' '] = rtrimSpec [' '] := by
  refine ⟨rfl, rfl, by decide⟩

/-- C7 amended: for every character attribute read during schema
introspection, the stored string equals the attribute text with every
trailing space, newline, tab and carriage-return removed, except that the
character at position 0 is never removed: a text consisting entirely of
such padding characters is stored as its first character alone. -/
theorem c7_crtrim_amended (s : List Char) :
    ((∃ c ∈ s, isPad c = false) → crtrim s = rtrimSpec s) ∧
    (s ≠ [] → (∀ c ∈ s, isPad c = true) → crtrim s = s.take 1) := by
  induction s using List.reverseRecOn with
  | nil =>
      constructor
      · rintro ⟨c, hc, -⟩; cases hc
      · intro h _; exact absurd rfl h
  | append_singleton t c ih =>
      by_cases htnil : t = []
      · subst htnil
        constructor
        · rintro ⟨d, hd, hdpad⟩
          simp at hd
          subst hd
          simp [crtrim, crtrimIdx, rtrimSpec, hdpad]
        · intro _ hall
          have hc := hall c (by simp)
          simp [crtrim, crtrimIdx, List.take]
      · have htlen : 0 < t.length := List.length_pos.mpr htnil
        have hlast : (t ++ [c]).getD t.length ' ' = c := by
          rw [List.getD_append_right _ _ _ _ le_rfl]
          simp
        have hlen : (t ++ [c]).length - 1 = t.length := by simp
        by_cases hcpad : isPad c = true
        · -- the last character is padding: crtrim recurses into t and
          -- rtrimSpec drops c
          have hidx : crtrimIdx (t ++ [c]) t.length =
              crtrimIdx t (t.length - 1) := by
            obtain ⟨m, hm⟩ : ∃ m, t.length = m + 1 :=
              ⟨t.length - 1, by omega⟩
            rw [hm, crtrimIdx]
            rw [show m + 1 = t.length from hm.symm, hlast, if_pos hcpad]
            rw [crtrimIdx_append t c m (by omega), hm]
            simp
          have hcr : crtrim (t ++ [c]) = crtrim t := by
            rw [crtrim, crtrim, if_neg (by simp), if_neg (by simp [htnil])]
            rw [hlen, hidx]
            have hle : crtrimIdx t (t.length - 1) + 1 ≤ t.length := by
              have := crtrimIdx_le t (t.length - 1)
              omega
            rw [List.take_append_of_le_length hle]
          have hrt : rtrimSpec (t ++ [c]) = rtrimSpec t := by
            rw [rtrimSpec, rtrimSpec, List.reverse_append]
            simp [List.dropWhile, hcpad]
          constructor
          · rintro ⟨d, hd, hdpad⟩
            have hdt : d ∈ t := by
              rcases List.mem_append.mp hd with h | h
              · exact h
              · simp at h
                subst h
                rw [hcpad] at hdpad
                cases hdpad
            rw [hcr, hrt]
            exact ih.1 ⟨d, hdt, hdpad⟩
          · intro _ hall
            have hallt : ∀ d ∈ t, isPad d = true :=
              fun d hd => hall d (List.mem_append.mpr (Or.inl hd))
            rw [hcr, ih.2 htnil hallt,
              List.take_append_of_le_length (by omega)]
        · -- the last character is not padding: the loop exits immediately
          have hidx : crtrimIdx (t ++ [c]) t.length = t.length := by
            obtain ⟨m, hm⟩ : ∃ m, t.length = m + 1 :=
              ⟨t.length - 1, by omega⟩
            rw [hm, crtrimIdx]
            rw [show m + 1 = t.length from hm.symm, hlast,
              if_neg (by simp [hcpad])]
          have hcr : crtrim (t ++ [c]) = t ++ [c] := by
            rw [crtrim, if_neg (by simp), hlen, hidx]
            rw [List.take_of_length_le (by simp)]
          have hrt : rtrimSpec (t ++ [c]) = t ++ [c] := by
            rw [rtrimSpec, List.reverse_append]
            simp [List.dropWhile, hcpad]
          constructor
          · intro _; rw [hcr, hrt]
          · intro _ hall
            have := hall c (List.mem_append.mpr (Or.inr (by simp)))
            rw [this] at hcpad
            exact absurd rfl hcpad

/-- Witness for C7's amended claim at concrete inputs: a text with a
non-padding character is right-trimmed exactly; an all-padding text keeps
its first character. -/
theorem c7_crtrim_amended_witness :
    ((∃ c ∈ (['a', ' '] : List Char), isPad c = false) ∧
      crtrim ['a', ' '] = rtrimSpec ['a', ' ']) ∧
    ((([' ', ' '] : List Char) ≠ [] ∧
        ∀ c ∈ ([' ', ' '] : List Char), isPad c = true) ∧
      crtrim [' ', ' '] = ([' ', ' '] : List Char).take 1) :=
  ⟨⟨by decide, (c7_crtrim_amended ['a', ' ']).1 (by decide)⟩,
   ⟨⟨by decide, by decide⟩,
    (c7_crtrim_amended [' ', ' ']).2 (by decide) (by decide)⟩⟩

/-- C8: every configuration mutation (a property setter triggering
set_modified) resets the cached metadata record to the empty record and
empties the handle cache, closing every open handle; set_modified itself
leaves the configuration properties unchanged (a setter changes exactly
what it assigns), and the next metadata call's cache test fails so the
record is recomputed. -/
theorem c8_set_modified_invalidates {μ : Type} (s : ReaderState μ)
    (upd : Config → Config) :
    (set_modified s).1.cfg = s.cfg ∧
    (set_modified s).1.cachedMetadata = none ∧
    (set_modified s).1.handles = [] ∧
    (set_modified s).2 = s.handles.filterMap Prod.snd ∧
    usesCachedMetadata (set_modified s).1 = false ∧
    (setPropertyTriggering upd s).1.cfg = upd s.cfg ∧
    (setPropertyTriggering upd s).1.cachedMetadata = none ∧
    (setPropertyTriggering upd s).1.handles = [] ∧
    usesCachedMetadata (setPropertyTriggering upd s).1 = false :=
  ⟨rfl, rfl, rfl, rfl, rfl, rfl, rfl, rfl, rfl⟩

lemma execArraysLoop_eq_filterMap (meshDims : List String)
    (att : String → Option VarAtts) (readA : String → Option (List α)) :
    ∀ names : List String,
    names.all (fun name =>
      match att name with
      | none => true
      | some a => ncDispatchCodes.contains a.type) = true →
    execArraysLoop meshDims att readA names =
      names.filterMap (specArrayResult meshDims att readA) := by
  intro names
  induction names with
  | nil => intro _; rfl
  | cons name rest ih =>
      intro hall
      rw [List.all_cons, Bool.and_eq_true] at hall
      have hrest := ih hall.2
      cases ha : att name with
      | none =>
          simp only [execArraysLoop, specArrayResult, ha,
            List.filterMap_cons]
          exact hrest
      | some a =>
          have htype : ncDispatchCodes.contains a.type = true := by
            have h1 := hall.1
            rw [ha] at h1
            exact h1
          cases hd : a.dimNames with
          | none =>
              simp only [execArraysLoop, specArrayResult, ha, hd,
                List.filterMap_cons]
              exact hrest
          | some dims =>
              by_cases hdm : dims = meshDims
              · cases hr : readA name with
                | none =>
                    simp only [execArraysLoop, specArrayResult, ha, hd,
                      if_pos hdm, htype, if_true, hr, Option.map_none',
                      List.filterMap_cons]
                    exact hrest
                | some d =>
                    simp only [execArraysLoop, specArrayResult, ha, hd,
                      if_pos hdm, htype, if_true, hr, Option.map_some',
                      List.filterMap_cons]
                    rw [hrest]
              · simp only [execArraysLoop, specArrayResult, ha, hd,
                  if_neg hdm, List.filterMap_cons]
                exact hrest

/-- C5: during execute, every requested array whose attribute lookup
fails, whose dimension-name list differs from the mesh dimension list, or
whose hyperslab read fails, is skipped; execute still returns a mesh and
its point arrays are exactly the arrays that succeeded (in request order),
provided every successfully looked-up array has a supported type code (the
unsupported-type path is the separate fall-through of C10).  No per-array
error makes execute return no mesh. -/
theorem c5_per_array_errors_skip [Inhabited α] (cfg : Config)
    (xC yC zC tC : List α) (we sc : List Nat) (rt : String)
    (fs : List String) (att : String → Option VarAtts)
    (readA readT : String → Option (List α)) (tv : List String)
    (req : Request)
    (hidx : (resolveStep sc (req.timeStep.getD 0)).1 < fs.length)
    (htypes : req.arrays.all (fun name =>
      match att name with
      | none => true
      | some a => ncDispatchCodes.contains a.type) = true) :
    ∃ m, execute cfg
        ⟨some (xC, yC, zC, tC), some we, some sc, some rt, some fs,
         some att, tv, true, readA, readT⟩ req = some m ∧
      m.pointArrays =
        req.arrays.filterMap
          (specArrayResult (meshDimNames cfg) att readA) := by
  have hexec : execute cfg
      ⟨some (xC, yC, zC, tC), some we, some sc, some rt, some fs,
       some att, tv, true, readA, readT⟩ req =
      if (resolveStep sc (req.timeStep.getD 0)).1 < fs.length then
        some { x := sliceCopy xC ((req.extent.getD we).getD 0 0)
                 ((req.extent.getD we).getD 1 0),
               y := sliceCopy yC ((req.extent.getD we).getD 2 0)
                 ((req.extent.getD we).getD 3 0),
               z := sliceCopy zC ((req.extent.getD we).getD 4 0)
                 ((req.extent.getD we).getD 5 0),
               time := if req.timeStep.getD 0 < tC.length then
                   tC.getD (req.timeStep.getD 0) default
                 else default,
               timeStep := req.timeStep.getD 0,
               wholeExtent := we, extent := req.extent.getD we,
               pointArrays :=
                 execArraysLoop (meshDimNames cfg) att readA req.arrays,
               infoArrays := execTimeVarsLoop att readT tv }
      else none := rfl
  rw [if_pos hidx] at hexec
  exact ⟨_, hexec,
    execArraysLoop_eq_filterMap (meshDimNames cfg) att readA
      req.arrays htypes⟩

/-- Witness for C5 at a concrete input: of four requested arrays, one
succeeds, one has no attributes, one has mismatched dimensions, one fails
to read; execute returns a mesh whose point arrays hold exactly the one
success. -/
theorem c5_per_array_errors_skip_witness :
    (resolveStep [2]
        ((Request.mk (some 0) none ["tas", "missing", "dmm", "rfail"]
          ).timeStep.getD 0)).1 < (["f.nc"] : List String).length ∧
    (Request.mk (some 0) none ["tas", "missing", "dmm", "rfail"]
      ).arrays.all (fun name =>
        match (fun n : String =>
          if n = "tas" then
            some (VarAtts.mk NC_FLOAT 3 (some ["time", "lat", "lon"]))
          else if n = "dmm" then
            some (VarAtts.mk NC_FLOAT 7 (some ["lat", "lon"]))
          else if n = "rfail" then
            some (VarAtts.mk NC_DOUBLE 9 (some ["time", "lat", "lon"]))
          else none) name with
        | none => true
        | some a => ncDispatchCodes.contains a.type) = true ∧
    ∃ m, execute (Config.mk "" "f.nc" "lon" "lat" "" "time" (-1))
        ⟨some (([0, 1, 2, 3] : List Nat), [0, 1, 2], [0], [10, 20]),
         some [0, 3, 0, 2, 0, 0], some [2], some "/d", some ["f.nc"],
         some (fun n : String =>
           if n = "tas" then
             some (VarAtts.mk NC_FLOAT 3 (some ["time", "lat", "lon"]))
           else if n = "dmm" then
             some (VarAtts.mk NC_FLOAT 7 (some ["lat", "lon"]))
           else if n = "rfail" then
             some (VarAtts.mk NC_DOUBLE 9 (some ["time", "lat", "lon"]))
           else none),
         [], true,
         (fun n : String =>
           if n = "tas" then
             some [1, 2, 3, 4, 5, 6, 7, 8, 9, 10, 11, 12]
           else none),
         (fun _ : String => none)⟩
        (Request.mk (some 0) none ["tas", "missing", "dmm", "rfail"]) =
        some m ∧
      m.pointArrays =
        (Request.mk (some 0) none ["tas", "missing", "dmm", "rfail"]
          ).arrays.filterMap
          (specArrayResult
            (meshDimNames (Config.mk "" "f.nc" "lon" "lat" "" "time" (-1)))
            (fun n : String =>
              if n = "tas" then
                some (VarAtts.mk NC_FLOAT 3 (some ["time", "lat", "lon"]))
              else if n = "dmm" then
                some (VarAtts.mk NC_FLOAT 7 (some ["lat", "lon"]))
              else if n = "rfail" then
                some (VarAtts.mk NC_DOUBLE 9 (some ["time", "lat", "lon"]))
              else none)
            (fun n : String =>
              if n = "tas" then
                some [1, 2, 3, 4, 5, 6, 7, 8, 9, 10, 11, 12]
              else none)) :=
  ⟨by decide, by decide,
   c5_per_array_errors_skip (Config.mk "" "f.nc" "lon" "lat" "" "time" (-1))
     [0, 1, 2, 3] [0, 1, 2] [0] [10, 20] [0, 3, 0, 2, 0, 0] [2] "/d"
     ["f.nc"]
     (fun n : String =>
       if n = "tas" then
         some (VarAtts.mk NC_FLOAT 3 (some ["time", "lat", "lon"]))
       else if n = "dmm" then
         some (VarAtts.mk NC_FLOAT 7 (some ["lat", "lon"]))
       else if n = "rfail" then
         some (VarAtts.mk NC_DOUBLE 9 (some ["time", "lat", "lon"]))
       else none)
     (fun n : String =>
       if n = "tas" then some [1, 2, 3, 4, 5, 6, 7, 8, 9, 10, 11, 12]
       else none)
     (fun _ : String => none) []
     (Request.mk (some 0) none ["tas", "missing", "dmm", "rfail"])
     (by decide) (by decide)⟩

/-- C10: in the requested-arrays loop of execute, an array whose recorded
type code lies outside the NC_DISPATCH set hits the default branch, which
only logs; control falls through to the attach step and a null (absent)
array is appended to the mesh point arrays under the requested name
instead of the array being skipped. -/
theorem c10_unsupported_type_appends_null (meshDims : List String)
    (att : String → Option VarAtts) (readA : String → Option (List α))
    (name : String) (rest : List String) (a : VarAtts)
    (ha : att name = some a) (hd : a.dimNames = some meshDims)
    (ht : ncDispatchCodes.contains a.type = false) :
    execArraysLoop meshDims att readA (name :: rest) =
      (name, (none : Option (List α))) ::
        execArraysLoop meshDims att readA rest := by
  simp only [execArraysLoop, ha, hd, if_pos rfl, ht]
  simp

/-- Witness for C10 at a concrete input: a variable recorded with the
NC_STRING type code (outside the dispatch set) is attached as a null
array. -/
theorem c10_unsupported_type_appends_null_witness :
    ((fun n : String =>
        if n = "sviz" then some (VarAtts.mk NC_STRING 5 (some ["lon"]))
        else none) "sviz" =
      some (VarAtts.mk NC_STRING 5 (some ["lon"])) ∧
     (VarAtts.mk NC_STRING 5 (some ["lon"])).dimNames = some ["lon"] ∧
     ncDispatchCodes.contains (VarAtts.mk NC_STRING 5 (some ["lon"])).type =
       false) ∧
    execArraysLoop ["lon"]
        (fun n : String =>
          if n = "sviz" then some (VarAtts.mk NC_STRING 5 (some ["lon"]))
          else none)
        (fun _ : String => some [(7 : Nat)]) ["sviz"] =
      (("sviz", (none : Option (List Nat))) ::
        execArraysLoop ["lon"]
          (fun n : String =>
            if n = "sviz" then some (VarAtts.mk NC_STRING 5 (some ["lon"]))
            else none)
          (fun _ : String => some [(7 : Nat)]) []) :=
  ⟨⟨by decide, by decide, by decide⟩,
   c10_unsupported_type_appends_null ["lon"]
     (fun n : String =>
       if n = "sviz" then some (VarAtts.mk NC_STRING 5 (some ["lon"]))
       else none)
     (fun _ : String => some [(7 : Nat)]) "sviz" []
     (VarAtts.mk NC_STRING 5 (some ["lon"])) (by decide) (by decide)
     (by decide)⟩
